import Mathlib

/-!
# Verification of the `andreich/audio` chunked audio streaming pipeline

Shallow embedding of the client-side stream chunker
(`client/recorder/recorder.go`) and the server-side recording sink
(`server/server.go`).

Conventions of the embedding:

* Sample values (`float32` on the wire) are never inspected arithmetically by
  the code under study, only copied and concatenated; they are modelled by an
  arbitrary type `α`.
* Durations are modelled in nanoseconds as integers (`time.Duration` is an
  `int64` nanosecond count in Go).
* The duration computation
  `time.Duration(float32(currentFrames+lin)/div) * time.Second` performs a
  `float32` division followed by a float-to-integer conversion that truncates
  toward zero.  We model the division over `ℚ` and the conversion by `truncQ`.
  This is exact whenever the operands and quotient are exactly representable
  in `float32`; every concrete instance used below is chosen to be exact
  (operands are small integers and quotients are dyadic or integral).
* Transport operations (`client.Record`, `stream.Send`, `stream.CloseSend`,
  file writes and closes) are external and fallible; each call's outcome is
  supplied by an environment record, matching the repository's own fakes
  (`recorder_test.go`): a failed `Send` delivers nothing.
* The per-stream event traces (`closed`, `cur`) are ghost instrumentation
  recording what was delivered on each transport stream, in open order.  The
  Go-visible state is `currentStream ≠ nil` (here `cur.isSome`) and
  `currentFrames`.
-/

/-- Truncation of a rational toward zero, the semantics of Go's
float-to-integer conversion. -/
def truncQ (q : ℚ) : ℤ := if 0 ≤ q then ⌊q⌋ else ⌈q⌉

namespace Audio

/-- `RecordRequest.Header` from `service.proto`: `num_channels : int32`,
`sample_rate : float32` (modelled as `ℚ`). -/
structure Header where
  numChannels : ℤ
  sampleRate : ℚ
deriving DecidableEq

/-- `RecordRequest` from `service.proto`: an optional header and a packed
list of samples. -/
structure RecordRequest (α : Type) where
  header : Option Header
  sample : List α
deriving DecidableEq

/-- An event observable on one transport stream: a delivered `Send` or a
`CloseSend`. -/
inductive StreamEvent (α : Type) where
  | send (req : RecordRequest α)
  | closeSend
deriving DecidableEq

/-- Configuration of the chunker `R`: `numChannels`, `sampleRate`,
`maxLength` (nanoseconds), as set up by `recorder.New`. -/
structure Config where
  numChannels : ℤ
  sampleRate : ℚ
  maxLength : ℤ
deriving DecidableEq

/-- State of the chunker `R` plus ghost stream traces.
`cur = some evs` models `currentStream ≠ nil`, with `evs` the events
delivered on the currently referenced stream; `closed` holds the traces of
previously referenced streams, in open order. -/
structure RState (α : Type) where
  cur : Option (List (StreamEvent α))
  currentFrames : ℤ
  closed : List (List (StreamEvent α))
deriving DecidableEq

/-- Outcomes of the fallible transport calls available to one callback
invocation (`true` = the call fails). -/
structure Env where
  closeSendErr : Bool
  recordErr : Bool
  headerSendErr : Bool
  sampleSendErr : Bool
deriving DecidableEq

/-- The all-success environment. -/
def allOk : Env := ⟨false, false, false, false⟩

/-- Initial chunker state: no stream, zero frames (`recorder.New`). -/
def init (α : Type) : RState α := ⟨none, 0, []⟩

/-- The duration `d` computed in `R.Process`:
`time.Duration(float32(frames) / (sampleRate*numChannels)) * time.Second`,
in nanoseconds: the quotient `frames / (sampleRate * numChannels)` truncated
toward zero (Go float-to-integer conversion), times `10^9`.
Writing `sampleRate = num/den`, that quotient equals
`(frames * den) / (num * numChannels)`, and `Int.tdiv` is exactly truncation
toward zero; `durNs_eq_floor` below validates this against the
rational-division reading. -/
def durNs (cfg : Config) (frames : ℤ) : ℤ :=
  Int.tdiv (frames * (cfg.sampleRate.den : ℤ)) (cfg.sampleRate.num * cfg.numChannels)
    * 1000000000

/-- The header message sent at the start of each stream by
`testAndCloseStream`. -/
def hdrMsg (α : Type) (cfg : Config) : RecordRequest α :=
  ⟨some ⟨cfg.numChannels, cfg.sampleRate⟩, []⟩

/-- A sample-only message as built in the `Process` callback
(`req.Reset(); req.Sample = append(req.Sample, in...)`). -/
def smpMsg (buf : List α) : RecordRequest α := ⟨none, buf⟩

/-- `R.closeCurrentStream`: reset `currentFrames`; if a stream is referenced,
issue `CloseSend` on it and return its error.  The stream reference is NOT
cleared. -/
def closeCurrentStream (s : RState α) (closeErr : Bool) : RState α × Bool :=
  match s.cur with
  | none => ({ s with currentFrames := 0 }, false)
  | some evs =>
      ({ s with currentFrames := 0, cur := some (evs ++ [StreamEvent.closeSend]) }, closeErr)

/-- `R.Close`. -/
def Close (s : RState α) (closeErr : Bool) : RState α × Bool :=
  closeCurrentStream s closeErr

/-- `R.testAndCloseStream`: keep the current stream if one is referenced and
`maxLength ≥ d`; otherwise close it (error only logged), open a new stream
via `client.Record` (on failure the stream reference becomes nil and the
error is returned), and send the header on it (on failure the error is
returned but the new stream stays referenced).  The returned `Bool` is
`true` iff an error is returned to the caller.  When the reference moves off
a stream, its ghost trace is finalized into `closed`. -/
def testAndCloseStream (cfg : Config) (s : RState α) (env : Env) (d : ℤ) :
    RState α × Bool :=
  if s.cur.isSome ∧ d ≤ cfg.maxLength then (s, false)
  else
    let s1 := (closeCurrentStream s env.closeSendErr).1
    let s2 : RState α := { s1 with cur := none, closed := s1.closed ++ s1.cur.toList }
    if env.recordErr then (s2, true)
    else
      let s3 : RState α := { s2 with cur := some [] }
      if env.headerSendErr then (s3, true)
      else ({ s3 with cur := some [StreamEvent.send (hdrMsg α cfg)] }, false)

/-- One invocation of the callback returned by `R.Process` on capture buffer
`buf`: compute the projected duration, run `testAndCloseStream` (on error the
buffer is dropped), then count the frames and send the sample message (a
failed send delivers nothing and is only logged). -/
def processStep (cfg : Config) (s : RState α) (buf : List α) (env : Env) :
    RState α :=
  let lin : ℤ := buf.length
  let d := durNs cfg (s.currentFrames + lin)
  let r := testAndCloseStream cfg s env d
  if r.2 then r.1
  else
    let s2 : RState α := { r.1 with currentFrames := r.1.currentFrames + lin }
    match s2.cur with
    | none => s2
    | some evs =>
        if env.sampleSendErr then s2
        else { s2 with cur := some (evs ++ [StreamEvent.send (smpMsg buf)]) }

/-- Feeding a sequence of (buffer, transport outcomes) pairs to the callback,
in order. -/
def processRun (cfg : Config) (s : RState α) : List (List α × Env) → RState α
  | [] => s
  | p :: rest => processRun cfg (processStep cfg s p.1 p.2) rest

/-- All transport streams the chunker has opened, in open order, with their
delivered events. -/
def allStreams (s : RState α) : List (List (StreamEvent α)) :=
  s.closed ++ s.cur.toList

/-- The messages delivered on one stream, in order. -/
def msgsOf (evs : List (StreamEvent α)) : List (RecordRequest α) :=
  evs.filterMap fun e =>
    match e with
    | StreamEvent.send m => some m
    | StreamEvent.closeSend => none

/-- The concatenated sample payloads of the non-header messages delivered on
one stream. -/
def streamSamples (evs : List (StreamEvent α)) : List α :=
  (evs.filterMap fun e =>
    match e with
    | StreamEvent.send ⟨none, smp⟩ => some smp
    | _ => none).flatten

/-- In-order concatenation of the sample payloads of all non-header messages
delivered across all streams the chunker opened. -/
def sentSamples (s : RState α) : List α :=
  ((allStreams s).map streamSamples).flatten

/-- The number of `CloseSend`s issued across all streams. -/
def closeSendCount (s : RState α) : Nat :=
  ((allStreams s).map fun evs =>
    (evs.filter fun e =>
      match e with
      | StreamEvent.closeSend => true
      | _ => false).length).sum

/-- Finalizing the ghost trace of the stream the chunker moves off during a
rotation: a `CloseSend` is issued on it if one was referenced. -/
def finalize : Option (List (StreamEvent α)) → List (List (StreamEvent α))
  | none => []
  | some evs => [evs ++ [StreamEvent.closeSend]]

/-- A stream trace whose first delivered message is the one `Header` message
of its configuration and on which no later message has the header field
set. -/
def goodStream (cfg : Config) (evs : List (StreamEvent α)) : Prop :=
  ∃ rest, msgsOf evs = hdrMsg α cfg :: rest ∧ ∀ m ∈ rest, m.header = none

/-- The configuration of the spec's concrete scenario: mono, 11025 Hz,
2-second chunks. -/
def scenarioCfg : Config := ⟨1, mkRat 11025 1, 2000000000⟩

/-- An environment in which only the header `Send` fails. -/
def hdrFailEnv : Env := ⟨false, false, true, false⟩

/-! ## Server side: `server.go` -/

/-- State of one `server.Record` session: the output file (its channel count
and sample rate as passed to `sndfile.Open`) once created, and the sample
blocks written to it, in order.  `file = none` models `out == nil`. -/
structure SrvState (α : Type) where
  file : Option (ℤ × ℤ)
  written : List (List α)
deriving DecidableEq

/-- Initial session state (`var out *sndfile.File`). -/
def initSrv (α : Type) : SrvState α := ⟨none, []⟩

/-- What `server.Record` returns to the gRPC framework: `nil` after a normal
receive-loop exit, the `newRecording` error, or a `WriteFrames` error. -/
inductive SrvOutcome where
  | ok
  | openFailed
  | writeFailed
deriving DecidableEq

/-- Modelled from the spec: the external `sndfile.Open` call (the FileWriter
collaborator, a third-party library outside this repository) creating a
`WAV/PCM16` file.  Per the spec's sink contract, creation succeeds exactly
when the channel count and sample rate are positive; on failure no file
exists. -/
def sndfileOpenOk (numChannels samplerate : ℤ) : Bool :=
  decide (0 < numChannels) && decide (0 < samplerate)

/-- `in.GetHeader()`: proto3 getter, yielding zero values
(`NumChannels = 0`, `SampleRate = 0`) when the header is absent. -/
def getHdr (m : RecordRequest α) : Header :=
  m.header.getD ⟨0, 0⟩

/-- The receive loop of `server.Record` over the messages delivered on one
transport stream (after them, `Recv` returns the end-of-stream or transport
error and the loop breaks, returning `nil`).  On the first message, while
`out == nil`, `newRecording(hdr.NumChannels, int32(hdr.SampleRate))` is
called; its failure is returned.  A message with non-empty sample data is
written with `WriteFrames`, whose failure (per `writeOk`, indexed by the
number of earlier writes) is returned. -/
def recordMsgs (writeOk : Nat → Bool) :
    List (RecordRequest α) → SrvState α → SrvState α × SrvOutcome
  | [], s => (s, SrvOutcome.ok)
  | m :: ms, s =>
      let opened : Option (SrvState α) :=
        match s.file with
        | some _ => some s
        | none =>
            let hdr := getHdr m
            if sndfileOpenOk hdr.numChannels (truncQ hdr.sampleRate) then
              some { s with file := some (hdr.numChannels, truncQ hdr.sampleRate) }
            else none
      match opened with
      | none => (s, SrvOutcome.openFailed)
      | some s2 =>
          if m.sample.isEmpty then recordMsgs writeOk ms s2
          else if writeOk s2.written.length then
            recordMsgs writeOk ms { s2 with written := s2.written ++ [m.sample] }
          else (s2, SrvOutcome.writeFailed)

/-- Result of one whole `server.Record` call: final session state, returned
error, whether the deferred `out.Close()` ran, and whether that close failed
(`closeErr` models the external close outcome). -/
structure RecordResult (α : Type) where
  final : SrvState α
  outcome : SrvOutcome
  closeCalled : Bool
  closeFailed : Bool
deriving DecidableEq

/-- `server.Record`: run the receive loop, then the deferred `out.Close()`
(registered exactly when a file was created).  The statement
`defer out.Close()` discards the close error, so `outcome` is whatever the
loop produced, independent of `closeErr`. -/
def serverRecord (writeOk : Nat → Bool) (closeErr : Bool)
    (ms : List (RecordRequest α)) : RecordResult α :=
  let r := recordMsgs writeOk ms (initSrv α)
  { final := r.1
    outcome := r.2
    closeCalled := r.1.file.isSome
    closeFailed := r.1.file.isSome && closeErr }

/-- `server.newRecording`, restricted to the mutex-protected counter logic:
the file name embeds the current `numClients` value (`%03d`), `sndfile.Open`
is attempted, and `numClients` is incremented afterwards regardless of the
open result.  Returns (sequence number in the generated name, updated
counter, open success). -/
def newRecording (numClients : ℕ) (numChannels samplerate : ℤ) :
    ℕ × ℕ × Bool :=
  (numClients, numClients + 1, sndfileOpenOk numChannels samplerate)

/-- A sequence of `newRecording` calls on one `server` value: the sequence
numbers embedded in the generated names, and the final counter. -/
def runNewRecordings : ℕ → List (ℤ × ℤ) → List ℕ × ℕ
  | st, [] => ([], st)
  | st, c :: cs =>
      let r := newRecording st c.1 c.2
      let rest := runNewRecordings r.2.1 cs
      (r.1 :: rest.1, rest.2)

/-- The non-empty sample payloads of a message list, in receive order
(`len(in.GetSample()) > 0` gates each write). -/
def nonEmptySamples (ms : List (RecordRequest α)) : List (List α) :=
  ms.filterMap fun x => if x.sample.isEmpty then none else some x.sample

end Audio


/-! ## Basic lemmas about the chunker step -/

namespace Audio

variable {α : Type}

theorem truncQ_nonpos {q : ℚ} (h : q ≤ 0) : truncQ q ≤ 0 := by
  unfold truncQ
  split
  · have hq : q = 0 := le_antisymm h (by assumption)
    simp [hq]
  · exact Int.ceil_le.mpr (by exact_mod_cast h)

theorem durNs_mono (cfg : Config) (hr : 0 < cfg.sampleRate)
    (hc : 0 < cfg.numChannels) {a b : ℤ} (ha : 0 ≤ a) (hab : a ≤ b) :
    durNs cfg a ≤ durNs cfg b := by
  have hden : (0 : ℤ) < (cfg.sampleRate.den : ℤ) := by
    exact_mod_cast cfg.sampleRate.den_pos
  have hnum : 0 < cfg.sampleRate.num := Rat.num_pos.mpr hr
  have hdenom : 0 < cfg.sampleRate.num * cfg.numChannels := mul_pos hnum hc
  have h1 : 0 ≤ a * (cfg.sampleRate.den : ℤ) := mul_nonneg ha hden.le
  have h2 : 0 ≤ b * (cfg.sampleRate.den : ℤ) := mul_nonneg (ha.trans hab) hden.le
  unfold durNs
  rw [Int.tdiv_eq_ediv h1 hdenom.le, Int.tdiv_eq_ediv h2 hdenom.le]
  exact mul_le_mul_of_nonneg_right
    (Int.ediv_le_ediv hdenom (mul_le_mul_of_nonneg_right hab hden.le))
    (by norm_num)

/-- Validation of the integer formulation of `durNs`: it is the floor (=
truncation, for the nonnegative values that occur) of the rational quotient
`frames / (sampleRate * numChannels)`, in seconds, times `10^9`. -/
theorem durNs_eq_floor (cfg : Config) (f : ℤ) (hf : 0 ≤ f)
    (hr : 0 < cfg.sampleRate) (hc : 0 < cfg.numChannels) :
    durNs cfg f =
      ⌊(f : ℚ) / (cfg.sampleRate * (cfg.numChannels : ℚ))⌋ * 1000000000 := by
  have hden : (0 : ℤ) < (cfg.sampleRate.den : ℤ) := by
    exact_mod_cast cfg.sampleRate.den_pos
  have hnum : 0 < cfg.sampleRate.num := Rat.num_pos.mpr hr
  have hdenom : 0 < cfg.sampleRate.num * cfg.numChannels := mul_pos hnum hc
  have h1 : 0 ≤ f * (cfg.sampleRate.den : ℤ) := mul_nonneg hf hden.le
  have hden0 : (cfg.sampleRate.den : ℚ) ≠ 0 := by positivity
  have key : (cfg.sampleRate.den : ℚ) * cfg.sampleRate = (cfg.sampleRate.num : ℚ) :=
    Rat.den_mul_eq_num cfg.sampleRate
  have hq : (f : ℚ) / (cfg.sampleRate * (cfg.numChannels : ℚ)) =
      ((f * (cfg.sampleRate.den : ℤ) : ℤ) : ℚ) /
        (((cfg.sampleRate.num * cfg.numChannels).toNat : ℕ) : ℚ) := by
    have htn : (((cfg.sampleRate.num * cfg.numChannels).toNat : ℕ) : ℚ) =
        ((cfg.sampleRate.num * cfg.numChannels : ℤ) : ℚ) := by
      exact_mod_cast congrArg (fun z : ℤ => (z : ℚ))
        (Int.toNat_of_nonneg hdenom.le)
    rw [htn, div_eq_div_iff]
    · push_cast
      linear_combination (-(f : ℚ) * (cfg.numChannels : ℚ)) * key
    · have : (0 : ℚ) < cfg.sampleRate * (cfg.numChannels : ℚ) := by
        have : (0 : ℚ) < (cfg.numChannels : ℚ) := by exact_mod_cast hc
        exact mul_pos hr this
      exact this.ne'
    · exact_mod_cast hdenom.ne'
  unfold durNs
  rw [Int.tdiv_eq_ediv h1 hdenom.le, hq, Rat.floor_intCast_div_natCast
    (f * (cfg.sampleRate.den : ℤ)) (cfg.sampleRate.num * cfg.numChannels).toNat,
    Int.toNat_of_nonneg hdenom.le]

theorem rotCond_of (cfg : Config) (s : RState α) (d : ℤ)
    (h : s.cur = none ∨ cfg.maxLength < d) :
    ¬(s.cur.isSome ∧ d ≤ cfg.maxLength) := by
  rintro ⟨hs, hd⟩
  rcases h with h | h
  · rw [h] at hs; simp at hs
  · exact absurd hd (not_le.mpr h)

theorem testAndCloseStream_stay (cfg : Config) (s : RState α)
    (evs : List (StreamEvent α)) (env : Env) (d : ℤ)
    (hcur : s.cur = some evs) (hd : d ≤ cfg.maxLength) :
    testAndCloseStream cfg s env d = (s, false) := by
  unfold testAndCloseStream
  rw [if_pos]
  exact ⟨by simp [hcur], hd⟩

theorem testAndCloseStream_rotate (cfg : Config) (s : RState α) (env : Env) (d : ℤ)
    (hrot : s.cur = none ∨ cfg.maxLength < d)
    (hrec : env.recordErr = false) (hhdr : env.headerSendErr = false) :
    testAndCloseStream cfg s env d =
      (⟨some [StreamEvent.send (hdrMsg α cfg)], 0, s.closed ++ finalize s.cur⟩, false) := by
  unfold testAndCloseStream
  rw [if_neg (rotCond_of cfg s d hrot)]
  rcases hcurs : s.cur with _ | evs <;>
    simp [closeCurrentStream, hcurs, hrec, hhdr, finalize]

theorem testAndCloseStream_recordFail (cfg : Config) (s : RState α) (env : Env) (d : ℤ)
    (hrot : s.cur = none ∨ cfg.maxLength < d) (hrec : env.recordErr = true) :
    testAndCloseStream cfg s env d =
      (⟨none, 0, s.closed ++ finalize s.cur⟩, true) := by
  unfold testAndCloseStream
  rw [if_neg (rotCond_of cfg s d hrot)]
  rcases hcurs : s.cur with _ | evs <;>
    simp [closeCurrentStream, hcurs, hrec, finalize]

theorem testAndCloseStream_headerFail (cfg : Config) (s : RState α) (env : Env) (d : ℤ)
    (hrot : s.cur = none ∨ cfg.maxLength < d)
    (hrec : env.recordErr = false) (hhdr : env.headerSendErr = true) :
    testAndCloseStream cfg s env d =
      (⟨some [], 0, s.closed ++ finalize s.cur⟩, true) := by
  unfold testAndCloseStream
  rw [if_neg (rotCond_of cfg s d hrot)]
  rcases hcurs : s.cur with _ | evs <;>
    simp [closeCurrentStream, hcurs, hrec, hhdr, finalize]

theorem processStep_stay (cfg : Config) (s : RState α) (evs : List (StreamEvent α))
    (buf : List α) (env : Env) (hcur : s.cur = some evs)
    (hd : durNs cfg (s.currentFrames + buf.length) ≤ cfg.maxLength) :
    processStep cfg s buf env =
      ⟨some (if env.sampleSendErr then evs
             else evs ++ [StreamEvent.send (smpMsg buf)]),
       s.currentFrames + buf.length, s.closed⟩ := by
  simp only [processStep]
  rw [testAndCloseStream_stay cfg s evs env _ hcur hd]
  simp only [hcur]
  cases henv : env.sampleSendErr <;> simp [henv, hcur]

theorem processStep_rotate (cfg : Config) (s : RState α) (buf : List α) (env : Env)
    (hrot : s.cur = none ∨ cfg.maxLength < durNs cfg (s.currentFrames + buf.length))
    (hrec : env.recordErr = false) (hhdr : env.headerSendErr = false) :
    processStep cfg s buf env =
      ⟨some (if env.sampleSendErr then [StreamEvent.send (hdrMsg α cfg)]
             else [StreamEvent.send (hdrMsg α cfg), StreamEvent.send (smpMsg buf)]),
       (buf.length : ℤ), s.closed ++ finalize s.cur⟩ := by
  simp only [processStep]
  rw [testAndCloseStream_rotate cfg s env _ hrot hrec hhdr]
  cases henv : env.sampleSendErr <;> simp [henv]

theorem processStep_recordFail (cfg : Config) (s : RState α) (buf : List α) (env : Env)
    (hrot : s.cur = none ∨ cfg.maxLength < durNs cfg (s.currentFrames + buf.length))
    (hrec : env.recordErr = true) :
    processStep cfg s buf env = ⟨none, 0, s.closed ++ finalize s.cur⟩ := by
  simp only [processStep]
  rw [testAndCloseStream_recordFail cfg s env _ hrot hrec]
  simp

theorem processStep_headerFail (cfg : Config) (s : RState α) (buf : List α) (env : Env)
    (hrot : s.cur = none ∨ cfg.maxLength < durNs cfg (s.currentFrames + buf.length))
    (hrec : env.recordErr = false) (hhdr : env.headerSendErr = true) :
    processStep cfg s buf env = ⟨some [], 0, s.closed ++ finalize s.cur⟩ := by
  simp only [processStep]
  rw [testAndCloseStream_headerFail cfg s env _ hrot hrec hhdr]
  simp

theorem msgsOf_append_send (evs : List (StreamEvent α)) (m : RecordRequest α) :
    msgsOf (evs ++ [StreamEvent.send m]) = msgsOf evs ++ [m] := by
  simp [msgsOf]

theorem msgsOf_append_close (evs : List (StreamEvent α)) :
    msgsOf (evs ++ [StreamEvent.closeSend]) = msgsOf evs := by
  simp [msgsOf]

theorem streamSamples_append_smp (evs : List (StreamEvent α)) (buf : List α) :
    streamSamples (evs ++ [StreamEvent.send (smpMsg buf)]) =
      streamSamples evs ++ buf := by
  simp [streamSamples, smpMsg]

theorem streamSamples_append_close (evs : List (StreamEvent α)) :
    streamSamples (evs ++ [StreamEvent.closeSend]) = streamSamples evs := by
  simp [streamSamples]

theorem streamSamples_hdr_smp (cfg : Config) (buf : List α) :
    streamSamples [StreamEvent.send (hdrMsg α cfg), StreamEvent.send (smpMsg buf)] =
      buf := by
  simp [streamSamples, hdrMsg, smpMsg]

theorem streamSamples_hdr (cfg : Config) :
    streamSamples ([StreamEvent.send (hdrMsg α cfg)] : List (StreamEvent α)) = [] := by
  simp [streamSamples, hdrMsg]

theorem sentSamples_mk_some (evs : List (StreamEvent α)) (f : ℤ)
    (closed : List (List (StreamEvent α))) :
    sentSamples (⟨some evs, f, closed⟩ : RState α) =
      (closed.map streamSamples).flatten ++ streamSamples evs := by
  simp [sentSamples, allStreams]

theorem sentSamples_mk_none (f : ℤ) (closed : List (List (StreamEvent α))) :
    sentSamples (⟨none, f, closed⟩ : RState α) =
      (closed.map streamSamples).flatten := by
  simp [sentSamples, allStreams]

theorem sentSamples_cur_some (s : RState α) (evs : List (StreamEvent α))
    (hcur : s.cur = some evs) :
    sentSamples s = (s.closed.map streamSamples).flatten ++ streamSamples evs := by
  simp [sentSamples, allStreams, hcur]

theorem sentSamples_cur_none (s : RState α) (hcur : s.cur = none) :
    sentSamples s = (s.closed.map streamSamples).flatten := by
  simp [sentSamples, allStreams, hcur]

theorem flatten_map_finalize (closed : List (List (StreamEvent α)))
    (cur : Option (List (StreamEvent α))) :
    ((closed ++ finalize cur).map streamSamples).flatten =
      (closed.map streamSamples).flatten ++
        (match cur with
         | none => []
         | some evs => streamSamples evs) := by
  rcases cur with _ | evs <;> simp [finalize, streamSamples_append_close]


/-- Sample preservation over a run from an arbitrary state, when every
stream open, header send and sample send succeeds. -/
theorem processRun_sentSamples (cfg : Config) (inputs : List (List α × Env)) :
    ∀ s : RState α,
      (∀ p ∈ inputs,
        p.2.recordErr = false ∧ p.2.headerSendErr = false ∧
          p.2.sampleSendErr = false) →
      sentSamples (processRun cfg s inputs) =
        sentSamples s ++ (inputs.map Prod.fst).flatten := by
  induction inputs with
  | nil => intro s _; simp [processRun]
  | cons p rest ih =>
      intro s h
      have hp := h p (List.mem_cons_self p rest)
      have hrest : ∀ q ∈ rest,
          q.2.recordErr = false ∧ q.2.headerSendErr = false ∧
            q.2.sampleSendErr = false :=
        fun q hq => h q (List.mem_cons_of_mem p hq)
      obtain ⟨hrec, hhdr, hsmp⟩ := hp
      simp only [processRun]
      rw [ih _ hrest]
      by_cases hc : s.cur.isSome ∧
          durNs cfg (s.currentFrames + p.1.length) ≤ cfg.maxLength
      · obtain ⟨evs, hevs⟩ := Option.isSome_iff_exists.mp hc.1
        rw [processStep_stay cfg s evs p.1 p.2 hevs hc.2, hsmp]
        simp [sentSamples_mk_some, sentSamples_cur_some s evs hevs,
          streamSamples_append_smp]
      · have hrot : s.cur = none ∨
            cfg.maxLength < durNs cfg (s.currentFrames + p.1.length) := by
          rcases not_and_or.mp hc with h1 | h2
          · exact Or.inl (Option.not_isSome_iff_eq_none.mp (by simpa using h1))
          · exact Or.inr (not_le.mp h2)
        rw [processStep_rotate cfg s p.1 p.2 hrot hrec hhdr, hsmp]
        rcases hcurs : s.cur with _ | evs
        · simp [sentSamples_mk_some, flatten_map_finalize, hcurs,
            sentSamples_cur_none s hcurs, streamSamples_hdr_smp, finalize,
            streamSamples_append_close]
        · simp [sentSamples_mk_some, flatten_map_finalize, hcurs,
            sentSamples_cur_some s evs hcurs, streamSamples_hdr_smp, finalize,
            streamSamples_append_close]


/-! ## Claim theorems -/

/-- C1: for every sequence of capture buffers delivered in order to the
callback returned by `R.Process`, if every stream open, header send, and
sample send succeeds, then the in-order concatenation of the `Sample`
payloads of all non-header messages sent across all streams the chunker
opens equals the in-order concatenation of the input buffers: no sample is
dropped, duplicated, or reordered. -/
theorem c1_sample_preservation {α : Type} (cfg : Config)
    (inputs : List (List α × Env))
    (h : ∀ p ∈ inputs,
      p.2.recordErr = false ∧ p.2.headerSendErr = false ∧
        p.2.sampleSendErr = false) :
    sentSamples (processRun cfg (init α) inputs) =
      (inputs.map Prod.fst).flatten := by
  rw [processRun_sentSamples cfg inputs (init α) h]
  simp [init, sentSamples, allStreams]

/-- Witness for C1 at a concrete two-buffer run. -/
theorem c1_sample_preservation_witness :
    (∀ p ∈ ([([1, 2], allOk), ([3], allOk)] : List (List ℕ × Env)),
      p.2.recordErr = false ∧ p.2.headerSendErr = false ∧
        p.2.sampleSendErr = false) ∧
    sentSamples (processRun ⟨1, mkRat 1 1, 10000000000⟩ (init ℕ)
        [([1, 2], allOk), ([3], allOk)]) =
      (([([1, 2], allOk), ([3], allOk)] : List (List ℕ × Env)).map
        Prod.fst).flatten :=
  ⟨by decide,
   c1_sample_preservation ⟨1, mkRat 1 1, 10000000000⟩
     [([1, 2], allOk), ([3], allOk)] (by decide)⟩

/-- C2: a buffer whose projected cumulative duration equals `maxLength`
exactly is sent on the current stream without rotating (first conjunct);
rotation happens only when the projected duration strictly exceeds
`maxLength` or no stream is open (second conjunct: whenever a stream is open
and the projected duration does not exceed `maxLength`, the set of opened
streams is unchanged and the buffer goes to the current stream); and in the
concrete scenario (maxLength 2 s, 11025 Hz, mono, five 1-second buffers) the
chunker opens exactly three streams carrying buffers {1,2}, {3,4}, {5},
each stream starting with a `Header` message (third conjunct). -/
theorem c2_rotation_boundary {α : Type} :
    (∀ (cfg : Config) (s : RState α) (evs : List (StreamEvent α))
        (buf : List α) (env : Env),
      s.cur = some evs → env.sampleSendErr = false →
      durNs cfg (s.currentFrames + buf.length) = cfg.maxLength →
      processStep cfg s buf env =
        ⟨some (evs ++ [StreamEvent.send (smpMsg buf)]),
         s.currentFrames + buf.length, s.closed⟩) ∧
    (∀ (cfg : Config) (s : RState α) (evs : List (StreamEvent α))
        (buf : List α) (env : Env),
      s.cur = some evs →
      durNs cfg (s.currentFrames + buf.length) ≤ cfg.maxLength →
      (processStep cfg s buf env).closed = s.closed ∧
      ∃ extra, (processStep cfg s buf env).cur = some (evs ++ extra)) ∧
    (∀ b1 b2 b3 b4 b5 : List α,
      b1.length = 11025 → b2.length = 11025 → b3.length = 11025 →
      b4.length = 11025 → b5.length = 11025 →
      (allStreams (processRun scenarioCfg (init α)
          [(b1, allOk), (b2, allOk), (b3, allOk), (b4, allOk),
           (b5, allOk)])).map msgsOf =
        [[hdrMsg α scenarioCfg, smpMsg b1, smpMsg b2],
         [hdrMsg α scenarioCfg, smpMsg b3, smpMsg b4],
         [hdrMsg α scenarioCfg, smpMsg b5]]) := by
  refine ⟨?_, ?_, ?_⟩
  · intro cfg s evs buf env hcur hsmp hd
    rw [processStep_stay cfg s evs buf env hcur (le_of_eq hd), hsmp]
    simp
  · intro cfg s evs buf env hcur hd
    rw [processStep_stay cfg s evs buf env hcur hd]
    cases henv : env.sampleSendErr
    · exact ⟨rfl, [StreamEvent.send (smpMsg buf)], by simp [henv]⟩
    · exact ⟨rfl, [], by simp [henv]⟩
  · intro b1 b2 b3 b4 b5 hb1 hb2 hb3 hb4 hb5
    have h1 : processStep scenarioCfg (init α) b1 allOk =
        ⟨some [StreamEvent.send (hdrMsg α scenarioCfg),
               StreamEvent.send (smpMsg b1)], 11025, []⟩ := by
      rw [processStep_rotate scenarioCfg (init α) b1 allOk (Or.inl rfl) rfl rfl]
      simp [init, finalize, allOk, hb1]
    have h2 : processStep scenarioCfg
        (⟨some [StreamEvent.send (hdrMsg α scenarioCfg),
                StreamEvent.send (smpMsg b1)], 11025, []⟩ : RState α) b2 allOk =
        ⟨some [StreamEvent.send (hdrMsg α scenarioCfg),
               StreamEvent.send (smpMsg b1), StreamEvent.send (smpMsg b2)],
         22050, []⟩ := by
      have hd : durNs scenarioCfg ((11025 : ℤ) + (b2.length : ℤ)) ≤
          scenarioCfg.maxLength := by
        rw [hb2]; decide
      rw [processStep_stay scenarioCfg _ _ b2 allOk rfl hd]
      simp [allOk, hb2]
    have h3 : processStep scenarioCfg
        (⟨some [StreamEvent.send (hdrMsg α scenarioCfg),
                StreamEvent.send (smpMsg b1), StreamEvent.send (smpMsg b2)],
          22050, []⟩ : RState α) b3 allOk =
        ⟨some [StreamEvent.send (hdrMsg α scenarioCfg),
               StreamEvent.send (smpMsg b3)], 11025,
         [[StreamEvent.send (hdrMsg α scenarioCfg), StreamEvent.send (smpMsg b1),
           StreamEvent.send (smpMsg b2), StreamEvent.closeSend]]⟩ := by
      have hd : scenarioCfg.maxLength <
          durNs scenarioCfg ((22050 : ℤ) + (b3.length : ℤ)) := by
        rw [hb3]; decide
      rw [processStep_rotate scenarioCfg _ b3 allOk (Or.inr hd) rfl rfl]
      simp [allOk, finalize, hb3]
    have h4 : processStep scenarioCfg
        (⟨some [StreamEvent.send (hdrMsg α scenarioCfg),
                StreamEvent.send (smpMsg b3)], 11025,
          [[StreamEvent.send (hdrMsg α scenarioCfg), StreamEvent.send (smpMsg b1),
            StreamEvent.send (smpMsg b2), StreamEvent.closeSend]]⟩ : RState α)
          b4 allOk =
        ⟨some [StreamEvent.send (hdrMsg α scenarioCfg),
               StreamEvent.send (smpMsg b3), StreamEvent.send (smpMsg b4)],
         22050,
         [[StreamEvent.send (hdrMsg α scenarioCfg), StreamEvent.send (smpMsg b1),
           StreamEvent.send (smpMsg b2), StreamEvent.closeSend]]⟩ := by
      have hd : durNs scenarioCfg ((11025 : ℤ) + (b4.length : ℤ)) ≤
          scenarioCfg.maxLength := by
        rw [hb4]; decide
      rw [processStep_stay scenarioCfg _ _ b4 allOk rfl hd]
      simp [allOk, hb4]
    have h5 : processStep scenarioCfg
        (⟨some [StreamEvent.send (hdrMsg α scenarioCfg),
                StreamEvent.send (smpMsg b3), StreamEvent.send (smpMsg b4)],
          22050,
          [[StreamEvent.send (hdrMsg α scenarioCfg), StreamEvent.send (smpMsg b1),
            StreamEvent.send (smpMsg b2), StreamEvent.closeSend]]⟩ : RState α)
          b5 allOk =
        ⟨some [StreamEvent.send (hdrMsg α scenarioCfg),
               StreamEvent.send (smpMsg b5)], 11025,
         [[StreamEvent.send (hdrMsg α scenarioCfg), StreamEvent.send (smpMsg b1),
           StreamEvent.send (smpMsg b2), StreamEvent.closeSend],
          [StreamEvent.send (hdrMsg α scenarioCfg), StreamEvent.send (smpMsg b3),
           StreamEvent.send (smpMsg b4), StreamEvent.closeSend]]⟩ := by
      have hd : scenarioCfg.maxLength <
          durNs scenarioCfg ((22050 : ℤ) + (b5.length : ℤ)) := by
        rw [hb5]; decide
      rw [processStep_rotate scenarioCfg _ b5 allOk (Or.inr hd) rfl rfl]
      simp [allOk, finalize, hb5]
    simp only [processRun]
    rw [h1, h2, h3, h4, h5]
    simp [allStreams, msgsOf, hdrMsg, smpMsg]


/-- Witness for C2: the equal-boundary rule at a one-sample state, the
no-rotation rule, and the concrete five-buffer scenario of the spec. -/
theorem c2_rotation_boundary_witness :
    ((⟨some [], 0, []⟩ : RState ℕ).cur = some [] ∧
     allOk.sampleSendErr = false ∧
     durNs ⟨1, mkRat 1 1, 1000000000⟩
       ((⟨some [], 0, []⟩ : RState ℕ).currentFrames + (([0] : List ℕ).length : ℤ)) =
       (⟨1, mkRat 1 1, 1000000000⟩ : Config).maxLength) ∧
    (processStep ⟨1, mkRat 1 1, 1000000000⟩ (⟨some [], 0, []⟩ : RState ℕ) [0] allOk =
      ⟨some ([] ++ [StreamEvent.send (smpMsg [0])]),
       (⟨some [], 0, []⟩ : RState ℕ).currentFrames + (([0] : List ℕ).length : ℤ),
       (⟨some [], 0, []⟩ : RState ℕ).closed⟩) ∧
    ((processStep ⟨1, mkRat 1 1, 1000000000⟩ (⟨some [], 0, []⟩ : RState ℕ) [0]
        allOk).closed = (⟨some [], 0, []⟩ : RState ℕ).closed ∧
     ∃ extra, (processStep ⟨1, mkRat 1 1, 1000000000⟩ (⟨some [], 0, []⟩ : RState ℕ)
        [0] allOk).cur = some ([] ++ extra)) ∧
    ((List.replicate 11025 (0 : ℕ)).length = 11025 ∧
     (List.replicate 11025 (10 : ℕ)).length = 11025 ∧
     (List.replicate 11025 (100 : ℕ)).length = 11025 ∧
     (List.replicate 11025 (200 : ℕ)).length = 11025 ∧
     (List.replicate 11025 (300 : ℕ)).length = 11025) ∧
    (allStreams (processRun scenarioCfg (init ℕ)
        [(List.replicate 11025 0, allOk), (List.replicate 11025 10, allOk),
         (List.replicate 11025 100, allOk), (List.replicate 11025 200, allOk),
         (List.replicate 11025 300, allOk)])).map msgsOf =
      [[hdrMsg ℕ scenarioCfg, smpMsg (List.replicate 11025 0),
        smpMsg (List.replicate 11025 10)],
       [hdrMsg ℕ scenarioCfg, smpMsg (List.replicate 11025 100),
        smpMsg (List.replicate 11025 200)],
       [hdrMsg ℕ scenarioCfg, smpMsg (List.replicate 11025 300)]] :=
  ⟨⟨rfl, rfl, by decide⟩,
   c2_rotation_boundary.1 ⟨1, mkRat 1 1, 1000000000⟩ ⟨some [], 0, []⟩ [] [0]
     allOk rfl rfl (by decide),
   c2_rotation_boundary.2.1 ⟨1, mkRat 1 1, 1000000000⟩ ⟨some [], 0, []⟩ [] [0]
     allOk rfl (by decide),
   ⟨by rw [List.length_replicate], by rw [List.length_replicate],
    by rw [List.length_replicate], by rw [List.length_replicate],
    by rw [List.length_replicate]⟩,
   c2_rotation_boundary.2.2 (List.replicate 11025 0) (List.replicate 11025 10)
     (List.replicate 11025 100) (List.replicate 11025 200)
     (List.replicate 11025 300) (by rw [List.length_replicate])
     (by rw [List.length_replicate]) (by rw [List.length_replicate])
     (by rw [List.length_replicate]) (by rw [List.length_replicate])⟩

/-- The receive loop once the output file exists, with all writes
succeeding: every later message's non-empty sample data is appended, in
receive order; empty sample payloads are ignored. -/
theorem recordMsgs_writes {α : Type} (ms : List (RecordRequest α)) :
    ∀ (s : SrvState α) (fmt : ℤ × ℤ), s.file = some fmt →
      recordMsgs (fun _ => true) ms s =
        (⟨s.file, s.written ++ nonEmptySamples ms⟩, SrvOutcome.ok) := by
  induction ms with
  | nil => intro s fmt hf; simp [recordMsgs, nonEmptySamples]
  | cons m rest ih =>
      intro s fmt hf
      by_cases he : m.sample.isEmpty
      · simp only [recordMsgs, hf, he, if_true]
        rw [ih s fmt hf]
        simp [nonEmptySamples, he, hf]
      · simp only [recordMsgs, hf, he, if_false]
        rw [ih ⟨some fmt, s.written ++ [m.sample]⟩ fmt rfl]
        simp [nonEmptySamples, he, hf]


/-- C3 (amended): at most one output file is created per served stream
(`file` is set once and never re-created); when the stream is non-empty, its
first message opens the file successfully, and all writes succeed, exactly
one output file is created and the blocks written to it are exactly the
non-empty `Sample` payloads of the received messages, in receive order;
a message with an empty `Sample` payload causes no write. -/
theorem c3_file_per_stream {α : Type} (m : RecordRequest α)
    (ms : List (RecordRequest α))
    (hv : sndfileOpenOk (getHdr m).numChannels (truncQ (getHdr m).sampleRate) =
      true) :
    recordMsgs (fun _ => true) (m :: ms) (initSrv α) =
      (⟨some ((getHdr m).numChannels, truncQ (getHdr m).sampleRate),
        nonEmptySamples (m :: ms)⟩, SrvOutcome.ok) := by
  by_cases he : m.sample.isEmpty
  · simp only [recordMsgs, initSrv, hv, if_true, he]
    rw [recordMsgs_writes ms
      ⟨some ((getHdr m).numChannels, truncQ (getHdr m).sampleRate), []⟩ _ rfl]
    simp [nonEmptySamples, he]
  · simp only [recordMsgs, initSrv, hv, if_true, he]
    rw [recordMsgs_writes ms
      ⟨some ((getHdr m).numChannels, truncQ (getHdr m).sampleRate),
       [] ++ [m.sample]⟩ _ rfl]
    simp [nonEmptySamples, he]

/-- C3 counterexample: a served transport stream that delivers no messages
(the client connects and closes immediately) creates no output file, so
"exactly one output file is created" fails for that stream; `Record`
returns `nil`. -/
theorem c3_counterexample :
    (recordMsgs (fun _ => true) ([] : List (RecordRequest ℕ)) (initSrv ℕ)).1.file =
      none ∧
    (recordMsgs (fun _ => true) ([] : List (RecordRequest ℕ)) (initSrv ℕ)).2 =
      SrvOutcome.ok :=
  ⟨rfl, rfl⟩

/-- Witness for C3 (amended) at a concrete stream: header message carrying
samples, then an empty block and a non-empty block. -/
theorem c3_file_per_stream_witness :
    (sndfileOpenOk (getHdr (⟨some ⟨1, mkRat 44100 1⟩, [5, 6]⟩ : RecordRequest ℕ)).numChannels
        (truncQ (getHdr (⟨some ⟨1, mkRat 44100 1⟩, [5, 6]⟩ : RecordRequest ℕ)).sampleRate) =
      true) ∧
    recordMsgs (fun _ => true)
        ([⟨some ⟨1, mkRat 44100 1⟩, [5, 6]⟩, ⟨none, []⟩, ⟨none, [7]⟩] :
          List (RecordRequest ℕ)) (initSrv ℕ) =
      (⟨some ((getHdr (⟨some ⟨1, mkRat 44100 1⟩, [5, 6]⟩ : RecordRequest ℕ)).numChannels,
          truncQ (getHdr (⟨some ⟨1, mkRat 44100 1⟩, [5, 6]⟩ : RecordRequest ℕ)).sampleRate),
        nonEmptySamples ([⟨some ⟨1, mkRat 44100 1⟩, [5, 6]⟩, ⟨none, []⟩, ⟨none, [7]⟩] :
          List (RecordRequest ℕ))⟩, SrvOutcome.ok) :=
  ⟨by decide,
   c3_file_per_stream (⟨some ⟨1, mkRat 44100 1⟩, [5, 6]⟩ : RecordRequest ℕ)
     [⟨none, []⟩, ⟨none, [7]⟩] (by decide)⟩


theorem goodStream_append_smp {cfg : Config} {evs : List (StreamEvent α)}
    (h : goodStream cfg evs) (buf : List α) :
    goodStream cfg (evs ++ [StreamEvent.send (smpMsg buf)]) := by
  obtain ⟨rest, heq, hrest⟩ := h
  refine ⟨rest ++ [smpMsg buf], ?_, ?_⟩
  · rw [msgsOf_append_send, heq]; rfl
  · intro m hm
    rcases List.mem_append.mp hm with h | h
    · exact hrest m h
    · rw [List.mem_singleton.mp h]; rfl

theorem goodStream_append_close {cfg : Config} {evs : List (StreamEvent α)}
    (h : goodStream cfg evs) :
    goodStream cfg (evs ++ [StreamEvent.closeSend]) := by
  obtain ⟨rest, heq, hrest⟩ := h
  exact ⟨rest, by rw [msgsOf_append_close, heq], hrest⟩

theorem goodStream_hdr (cfg : Config) :
    goodStream cfg ([StreamEvent.send (hdrMsg α cfg)] : List (StreamEvent α)) :=
  ⟨[], by simp [msgsOf], by simp⟩

theorem goodStream_hdr_smp (cfg : Config) (buf : List α) :
    goodStream cfg
      [StreamEvent.send (hdrMsg α cfg), StreamEvent.send (smpMsg buf)] :=
  ⟨[smpMsg buf], by simp [msgsOf], by intro m hm; rw [List.mem_singleton.mp hm]; rfl⟩

theorem processStep_goodStreams (cfg : Config) (s : RState α) (buf : List α)
    (env : Env) (hh : env.headerSendErr = false)
    (hinv : ∀ evs ∈ allStreams s, goodStream cfg evs) :
    ∀ evs ∈ allStreams (processStep cfg s buf env), goodStream cfg evs := by
  by_cases hc : s.cur.isSome ∧
      durNs cfg (s.currentFrames + buf.length) ≤ cfg.maxLength
  · obtain ⟨evs0, hevs0⟩ := Option.isSome_iff_exists.mp hc.1
    have hg0 : goodStream cfg evs0 := hinv evs0 (by simp [allStreams, hevs0])
    rw [processStep_stay cfg s evs0 buf env hevs0 hc.2]
    intro evs hevs
    simp only [allStreams, Option.toList_some, List.mem_append,
      List.mem_singleton] at hevs
    rcases hevs with h | h
    · exact hinv evs (by simp [allStreams, h])
    · subst h
      cases henv : env.sampleSendErr
      · simpa [henv] using goodStream_append_smp hg0 buf
      · simpa [henv] using hg0
  · have hrot : s.cur = none ∨
        cfg.maxLength < durNs cfg (s.currentFrames + buf.length) := by
      rcases not_and_or.mp hc with h1 | h2
      · exact Or.inl (Option.not_isSome_iff_eq_none.mp (by simpa using h1))
      · exact Or.inr (not_le.mp h2)
    have hfin : ∀ evs ∈ s.closed ++ finalize s.cur, goodStream cfg evs := by
      intro evs hevs
      rcases List.mem_append.mp hevs with h | h
      · exact hinv evs (by simp [allStreams, h])
      · rcases hcurs : s.cur with _ | evs0
        · rw [hcurs] at h; simp [finalize] at h
        · rw [hcurs] at h
          simp only [finalize, List.mem_singleton] at h
          subst h
          exact goodStream_append_close
            (hinv evs0 (by simp [allStreams, hcurs]))
    cases hrec : env.recordErr
    · rw [processStep_rotate cfg s buf env hrot hrec hh]
      intro evs hevs
      simp only [allStreams, Option.toList_some, List.mem_append,
        List.mem_singleton] at hevs
      rcases hevs with h | h
      · exact hfin evs (List.mem_append.mpr (by simpa using h))
      · subst h
        cases henv : env.sampleSendErr
        · simpa [henv] using goodStream_hdr_smp cfg buf
        · simpa [henv] using goodStream_hdr cfg (α := α)
    · rw [processStep_recordFail cfg s buf env hrot hrec]
      intro evs hevs
      simp only [allStreams, Option.toList_none, List.append_nil] at hevs
      exact hfin evs hevs

/-- C4 (amended): in every run in which each attempted header send succeeds
(other transport failures arbitrary), every transport stream opened by the
chunker carries exactly one `Header` message, it is the first message sent on
that stream, and no later message on the same stream has its header field
set.  (The claim as stated, without the header-send success assumption, is
refuted by `c4_counterexample`.) -/
theorem c4_header_invariant {α : Type} (cfg : Config)
    (inputs : List (List α × Env))
    (hh : ∀ p ∈ inputs, p.2.headerSendErr = false) :
    ∀ evs ∈ allStreams (processRun cfg (init α) inputs),
      goodStream cfg evs := by
  have main : ∀ (l : List (List α × Env)) (s : RState α),
      (∀ p ∈ l, p.2.headerSendErr = false) →
      (∀ evs ∈ allStreams s, goodStream cfg evs) →
      ∀ evs ∈ allStreams (processRun cfg s l), goodStream cfg evs := by
    intro l
    induction l with
    | nil => intro s _ hinv; simpa [processRun] using hinv
    | cons p rest ih =>
        intro s hl hinv
        simp only [processRun]
        exact ih (processStep cfg s p.1 p.2)
          (fun q hq => hl q (List.mem_cons_of_mem p hq))
          (processStep_goodStreams cfg s p.1 p.2
            (hl p (List.mem_cons_self p rest)) hinv)
  exact main inputs (init α) hh (by simp [init, allStreams])

/-- C4 counterexample: when the header send fails on a freshly opened
stream, the chunker keeps that stream and the next buffer's samples are
delivered on it; the stream's first (and only) delivered message is a
sample message with no header, refuting the claim. -/
theorem c4_counterexample :
    (allStreams (processRun ⟨1, mkRat 1 1, 10000000000⟩ (init ℕ)
        [([0], hdrFailEnv), ([1], allOk)])).map msgsOf = [[⟨none, [1]⟩]] ∧
    ¬ (∀ evs ∈ allStreams (processRun ⟨1, mkRat 1 1, 10000000000⟩ (init ℕ)
        [([0], hdrFailEnv), ([1], allOk)]),
        goodStream ⟨1, mkRat 1 1, 10000000000⟩ evs) := by
  constructor
  · decide
  · intro h
    obtain ⟨rest, heq, -⟩ :=
      h [StreamEvent.send ⟨none, [1]⟩] (by decide)
    simp [msgsOf, hdrMsg] at heq

/-- Witness for C4 (amended): a run with an open failure and a sample-send
failure, but no header-send failure. -/
theorem c4_header_invariant_witness :
    (∀ p ∈ ([([1], allOk), ([2], ⟨false, true, false, false⟩),
        ([3], ⟨false, false, false, true⟩)] : List (List ℕ × Env)),
      p.2.headerSendErr = false) ∧
    (∀ evs ∈ allStreams (processRun ⟨1, mkRat 1 1, 10000000000⟩ (init ℕ)
        [([1], allOk), ([2], ⟨false, true, false, false⟩),
         ([3], ⟨false, false, false, true⟩)]),
      goodStream ⟨1, mkRat 1 1, 10000000000⟩ evs) :=
  ⟨by decide,
   c4_header_invariant ⟨1, mkRat 1 1, 10000000000⟩
     [([1], allOk), ([2], ⟨false, true, false, false⟩),
      ([3], ⟨false, false, false, true⟩)] (by decide)⟩


/-- Stream counting from a mid-stream state, with constant buffer length
`f` and per-stream capacity `n` buffers: `r` buffers are already on the
current stream. -/
theorem processRun_streamCount (cfg : Config) (f n : ℕ)
    (hr : 0 < cfg.sampleRate) (hc : 0 < cfg.numChannels)
    (hcap : durNs cfg ((n : ℤ) * f) ≤ cfg.maxLength)
    (hcap2 : cfg.maxLength < durNs cfg (((n : ℤ) + 1) * f)) :
    ∀ (inputs : List (List α × Env)) (s : RState α) (evs0 : List (StreamEvent α))
      (r : ℕ),
      (∀ p ∈ inputs, p.1.length = f ∧ p.2.recordErr = false ∧
        p.2.headerSendErr = false ∧ p.2.sampleSendErr = false) →
      s.cur = some evs0 → s.currentFrames = (r : ℤ) * f → 1 ≤ r → r ≤ n →
      (allStreams (processRun cfg s inputs)).length =
        s.closed.length + 1 + (inputs.length + r - 1) / n := by
  intro inputs
  induction inputs with
  | nil =>
      intro s evs0 r _ hcur hfr h1 h2
      have hd : (r - 1) / n = 0 := Nat.div_eq_of_lt (by omega)
      simp [processRun, allStreams, hcur, hd]
  | cons p rest ih =>
      intro s evs0 r hin hcur hfr h1 h2
      obtain ⟨hlen, hrec, hhdr, hsmp⟩ := hin p (List.mem_cons_self p rest)
      have hrest := fun q hq => hin q (List.mem_cons_of_mem p hq)
      simp only [processRun]
      rcases Nat.lt_or_ge r n with hlt | hge
      · have hd : durNs cfg (s.currentFrames + (p.1.length : ℤ)) ≤
            cfg.maxLength := by
          rw [hfr, hlen]
          calc durNs cfg ((r : ℤ) * f + (f : ℤ)) ≤ durNs cfg ((n : ℤ) * f) := by
                apply durNs_mono cfg hr hc
                · positivity
                · have : (r : ℤ) + 1 ≤ (n : ℤ) := by exact_mod_cast hlt
                  nlinarith [Int.ofNat_nonneg f]
            _ ≤ cfg.maxLength := hcap
        rw [processStep_stay cfg s evs0 p.1 p.2 hcur hd, hsmp]
        rw [ih _ _ (r + 1) hrest rfl (by rw [hfr, hlen]; push_cast; ring)
          (by omega) (by omega)]
        have harith : rest.length + (r + 1) - 1 = rest.length + 1 + r - 1 := by
          omega
        simp [harith]
      · have hr_eq : r = n := le_antisymm h2 hge
        subst hr_eq
        have hd : cfg.maxLength <
            durNs cfg (s.currentFrames + (p.1.length : ℤ)) := by
          rw [hfr, hlen]
          calc cfg.maxLength < durNs cfg (((r : ℤ) + 1) * f) := hcap2
            _ = durNs cfg ((r : ℤ) * f + (f : ℤ)) := by ring_nf
        rw [processStep_rotate cfg s p.1 p.2 (Or.inr hd) hrec hhdr, hsmp]
        simp only [hcur, finalize, Bool.false_eq_true, if_false]
        rw [ih _ _ 1 hrest rfl (by simp [hlen]) le_rfl (by omega)]
        have hlen1 : (s.closed ++
            [evs0 ++ [StreamEvent.closeSend]]).length = s.closed.length + 1 := by
          simp
        rw [hlen1,
          show rest.length + 1 - 1 = rest.length from by omega,
          show (p :: rest).length + r - 1 = rest.length + r from by
            simp only [List.length_cons]; omega,
          Nat.add_div_right _ (by omega : 0 < r)]
        omega

/-- C5 (amended): with constant-length buffers of `f` samples, all sends
succeeding, positive rate and channel count, and `n` the per-stream buffer
capacity (the largest number of buffers whose projected truncated duration
does not exceed `maxLength`, characterized by the two capacity hypotheses),
the number of transport streams the chunker opens over `N` buffers is
`⌈N / n⌉ = (N + n - 1) / n`.  The claim's formula `⌈T / M⌉` (with
`T = N·d` the total fed duration) is refuted by `c5_counterexample`. -/
theorem c5_stream_count {α : Type} (cfg : Config) (f n : ℕ)
    (inputs : List (List α × Env))
    (hr : 0 < cfg.sampleRate) (hc : 0 < cfg.numChannels) (hn : 1 ≤ n)
    (hcap : durNs cfg ((n : ℤ) * f) ≤ cfg.maxLength)
    (hcap2 : cfg.maxLength < durNs cfg (((n : ℤ) + 1) * f))
    (hin : ∀ p ∈ inputs, p.1.length = f ∧ p.2.recordErr = false ∧
      p.2.headerSendErr = false ∧ p.2.sampleSendErr = false) :
    (allStreams (processRun cfg (init α) inputs)).length =
      (inputs.length + n - 1) / n := by
  cases inputs with
  | nil =>
      have hd : (n - 1) / n = 0 := Nat.div_eq_of_lt (by omega)
      simp [processRun, init, allStreams, hd]
  | cons p rest =>
      obtain ⟨hlen, hrec, hhdr, hsmp⟩ := hin p (List.mem_cons_self p rest)
      have hrest := fun q hq => hin q (List.mem_cons_of_mem p hq)
      simp only [processRun]
      rw [processStep_rotate cfg (init α) p.1 p.2 (Or.inl rfl) hrec hhdr, hsmp]
      simp only [init, finalize, Bool.false_eq_true, if_false]
      rw [processRun_streamCount cfg f n hr hc hcap hcap2 rest _ _ 1 hrest rfl
        (by simp [hlen]) le_rfl hn]
      rw [show rest.length + 1 - 1 = rest.length from by omega,
        show (p :: rest).length + n - 1 = rest.length + n from by
          simp only [List.length_cons]; omega,
        Nat.add_div_right _ (by omega : 0 < n)]
      simp [Nat.add_comm]

/-- C5 counterexample: buffers of 8 samples at 4 Hz mono last `d = 2 s`
each; `maxLength = 3 s` is not a multiple of `d`; three buffers are fed, so
the total duration is `T = 6 s` and the claim predicts
`⌈T / M⌉ = ⌈6/3⌉ = 2` streams — but each buffer starts its own stream
(the second buffer already projects 4 s > 3 s), so 3 streams open.  All
`float32` quantities involved (8/4 = 2, 16/4 = 4, 24/4 = 6) are exact. -/
theorem c5_counterexample :
    (allStreams (processRun ⟨1, mkRat 4 1, 3000000000⟩ (init ℕ)
        [(List.replicate 8 0, allOk), (List.replicate 8 0, allOk),
         (List.replicate 8 0, allOk)])).length = 3 ∧
    (allStreams (processRun ⟨1, mkRat 4 1, 3000000000⟩ (init ℕ)
        [(List.replicate 8 0, allOk), (List.replicate 8 0, allOk),
         (List.replicate 8 0, allOk)])).length ≠ 2 := by
  decide

/-- Witness for C5 (amended): rate 1 Hz mono, 1-sample buffers (1 s each),
`maxLength = 2 s`, capacity `n = 2`; five buffers yield `⌈5/2⌉ = 3`
streams. -/
theorem c5_stream_count_witness :
    ((0 : ℚ) < (⟨1, mkRat 1 1, 2000000000⟩ : Config).sampleRate ∧
     (0 : ℤ) < (⟨1, mkRat 1 1, 2000000000⟩ : Config).numChannels ∧
     1 ≤ 2 ∧
     durNs ⟨1, mkRat 1 1, 2000000000⟩ ((2 : ℤ) * 1) ≤
       (⟨1, mkRat 1 1, 2000000000⟩ : Config).maxLength ∧
     (⟨1, mkRat 1 1, 2000000000⟩ : Config).maxLength <
       durNs ⟨1, mkRat 1 1, 2000000000⟩ (((2 : ℤ) + 1) * 1)) ∧
    (allStreams (processRun ⟨1, mkRat 1 1, 2000000000⟩ (init ℕ)
        [([0], allOk), ([0], allOk), ([0], allOk), ([0], allOk),
         ([0], allOk)])).length =
      (([([0], allOk), ([0], allOk), ([0], allOk), ([0], allOk),
         ([0], allOk)] : List (List ℕ × Env)).length + 2 - 1) / 2 :=
  ⟨⟨by decide, by decide, by decide, by decide, by decide⟩,
   c5_stream_count ⟨1, mkRat 1 1, 2000000000⟩ 1 2
     [([0], allOk), ([0], allOk), ([0], allOk), ([0], allOk), ([0], allOk)]
     (by decide) (by decide) (by decide) (by decide) (by decide) (by decide)⟩


/-- C6 (amended): when a rotation is attempted (no stream open, or the
projected duration strictly exceeds `maxLength`):
(a) if opening the new transport stream fails, the buffer is dropped (no
message is delivered anywhere), and the chunker holds no active stream, so
the next buffer re-attempts rotation;
(b) if the open succeeds but the header send fails, the buffer is likewise
dropped — but, contrary to the claim, the chunker RETAINS the newly opened
stream (`cur = some []`): a later buffer that does not itself trigger
rotation sends its samples on that stream although no header was delivered
(`c6_counterexample`). -/
theorem c6_rotation_failure {α : Type} :
    (∀ (cfg : Config) (s : RState α) (buf : List α) (env : Env),
      (s.cur = none ∨ cfg.maxLength < durNs cfg (s.currentFrames + buf.length)) →
      env.recordErr = true →
      processStep cfg s buf env = ⟨none, 0, s.closed ++ finalize s.cur⟩ ∧
      sentSamples (processStep cfg s buf env) = sentSamples s) ∧
    (∀ (cfg : Config) (s : RState α) (buf : List α) (env : Env),
      (s.cur = none ∨ cfg.maxLength < durNs cfg (s.currentFrames + buf.length)) →
      env.recordErr = false → env.headerSendErr = true →
      processStep cfg s buf env = ⟨some [], 0, s.closed ++ finalize s.cur⟩ ∧
      sentSamples (processStep cfg s buf env) = sentSamples s) := by
  constructor
  · intro cfg s buf env hrot hrec
    have hstep := processStep_recordFail cfg s buf env hrot hrec
    refine ⟨hstep, ?_⟩
    rw [hstep, sentSamples_mk_none, flatten_map_finalize]
    rcases hcurs : s.cur with _ | evs
    · simp [sentSamples_cur_none s hcurs]
    · simp [sentSamples_cur_some s evs hcurs]
  · intro cfg s buf env hrot hrec hhdr
    have hstep := processStep_headerFail cfg s buf env hrot hrec hhdr
    refine ⟨hstep, ?_⟩
    rw [hstep, sentSamples_mk_some, flatten_map_finalize]
    rcases hcurs : s.cur with _ | evs
    · simp [sentSamples_cur_none s hcurs, streamSamples]
    · simp [sentSamples_cur_some s evs hcurs, streamSamples]

/-- C6 counterexample: a header-send failure leaves the chunker WITH an
active stream (`cur ≠ none`), so the next buffer does not re-attempt
rotation; its samples go out on the stream whose header was never
delivered.  This refutes "afterwards the chunker holds no active stream". -/
theorem c6_counterexample :
    (processStep ⟨1, mkRat 1 1, 10000000000⟩ (init ℕ) [0] hdrFailEnv).cur ≠
      none ∧
    (allStreams (processRun ⟨1, mkRat 1 1, 10000000000⟩ (init ℕ)
        [([0], hdrFailEnv), ([1], allOk)])).map msgsOf = [[smpMsg [1]]] := by
  decide

/-- Witness for C6 (amended) at concrete runs: an open failure and a
header-send failure from the initial state. -/
theorem c6_rotation_failure_witness :
    (((init ℕ).cur = none ∨ (⟨1, mkRat 1 1, 10000000000⟩ : Config).maxLength <
        durNs ⟨1, mkRat 1 1, 10000000000⟩
          ((init ℕ).currentFrames + (([0] : List ℕ).length : ℤ))) ∧
     (⟨false, true, false, false⟩ : Env).recordErr = true ∧
     processStep ⟨1, mkRat 1 1, 10000000000⟩ (init ℕ) [0]
         ⟨false, true, false, false⟩ =
       ⟨none, 0, (init ℕ).closed ++ finalize (init ℕ).cur⟩ ∧
     sentSamples (processStep ⟨1, mkRat 1 1, 10000000000⟩ (init ℕ) [0]
         ⟨false, true, false, false⟩) = sentSamples (init ℕ)) ∧
    (hdrFailEnv.recordErr = false ∧ hdrFailEnv.headerSendErr = true ∧
     processStep ⟨1, mkRat 1 1, 10000000000⟩ (init ℕ) [0] hdrFailEnv =
       ⟨some [], 0, (init ℕ).closed ++ finalize (init ℕ).cur⟩ ∧
     sentSamples (processStep ⟨1, mkRat 1 1, 10000000000⟩ (init ℕ) [0]
         hdrFailEnv) = sentSamples (init ℕ)) :=
  ⟨⟨Or.inl rfl, rfl,
    (c6_rotation_failure.1 ⟨1, mkRat 1 1, 10000000000⟩ (init ℕ) [0]
      ⟨false, true, false, false⟩ (Or.inl rfl) rfl).1,
    (c6_rotation_failure.1 ⟨1, mkRat 1 1, 10000000000⟩ (init ℕ) [0]
      ⟨false, true, false, false⟩ (Or.inl rfl) rfl).2⟩,
   ⟨rfl, rfl,
    (c6_rotation_failure.2 ⟨1, mkRat 1 1, 10000000000⟩ (init ℕ) [0]
      hdrFailEnv (Or.inl rfl) rfl rfl).1,
    (c6_rotation_failure.2 ⟨1, mkRat 1 1, 10000000000⟩ (init ℕ) [0]
      hdrFailEnv (Or.inl rfl) rfl rfl).2⟩⟩

/-- C7: a transport stream whose first received message lacks a `Header`, or
carries one with non-positive channel count or non-positive sample rate, is
rejected: `newRecording` is invoked with values for which the external
`sndfile.Open` fails (see `sndfileOpenOk`), its error is returned, the
session terminates, and no output file exists. -/
theorem c7_invalid_header {α : Type} (writeOk : ℕ → Bool)
    (m : RecordRequest α) (ms : List (RecordRequest α))
    (h : m.header = none ∨ ∃ hd, m.header = some hd ∧
      (hd.numChannels ≤ 0 ∨ hd.sampleRate ≤ 0)) :
    recordMsgs writeOk (m :: ms) (initSrv α) =
      (initSrv α, SrvOutcome.openFailed) := by
  have hopen : sndfileOpenOk (getHdr m).numChannels
      (truncQ (getHdr m).sampleRate) = false := by
    rcases h with h | ⟨hd, hm, hinv⟩
    · simp [getHdr, h, sndfileOpenOk, truncQ]
    · rcases hinv with hch | hrate
      · have : decide (0 < (getHdr m).numChannels) = false :=
          decide_eq_false (by simp [getHdr, hm]; omega)
        simp [sndfileOpenOk, this]
      · have : decide (0 < truncQ (getHdr m).sampleRate) = false :=
          decide_eq_false (not_lt.mpr (truncQ_nonpos (by simp [getHdr, hm]; exact hrate)))
        simp [sndfileOpenOk, this]
  simp [recordMsgs, initSrv, hopen]

/-- Witness for C7: a headerless first message carrying samples. -/
theorem c7_invalid_header_witness :
    ((⟨none, [5]⟩ : RecordRequest ℕ).header = none ∨
      ∃ hd, (⟨none, [5]⟩ : RecordRequest ℕ).header = some hd ∧
        (hd.numChannels ≤ 0 ∨ hd.sampleRate ≤ 0)) ∧
    recordMsgs (fun _ => true)
        ([⟨none, [5]⟩, ⟨none, [6]⟩] : List (RecordRequest ℕ)) (initSrv ℕ) =
      (initSrv ℕ, SrvOutcome.openFailed) :=
  ⟨Or.inl rfl,
   c7_invalid_header (fun _ => true) ⟨none, [5]⟩ [⟨none, [6]⟩] (Or.inl rfl)⟩

/-- C8 (amended): `Close` with no stream open returns nil and resets the
frame counter; `Close` with a stream open resets the counter, issues
`CloseSend` on the still-referenced stream and returns the transport's
result — the reference is NOT cleared, so each further `Close` issues a
further `CloseSend` (`c8_counterexample`); on a transport whose `CloseSend`
succeeds (as the repository's fake), every call returns no error. -/
theorem c8_close_behavior {α : Type} (s : RState α) (e : Bool) :
    (s.cur = none → Close s e = (⟨none, 0, s.closed⟩, false)) ∧
    (∀ evs, s.cur = some evs →
      Close s e =
        (⟨some (evs ++ [StreamEvent.closeSend]), 0, s.closed⟩, e)) := by
  constructor
  · intro h; simp [Close, closeCurrentStream, h]
  · intro evs h; simp [Close, closeCurrentStream, h]

/-- C8 counterexample: after one successfully processed buffer, two
successive `Close` calls issue TWO `CloseSend`s on the same stream —
`closeCurrentStream` never clears `currentStream` — refuting "issues no
second CloseSend"; both calls return nil on a transport that accepts
them. -/
theorem c8_counterexample :
    (Close (Close (processStep ⟨1, mkRat 1 1, 10000000000⟩ (init ℕ) [0] allOk)
        false).1 false).2 = false ∧
    closeSendCount (Close (Close
        (processStep ⟨1, mkRat 1 1, 10000000000⟩ (init ℕ) [0] allOk)
        false).1 false).1 = 2 := by
  decide

/-- Witness for C8 (amended): `Close` on the streamless initial state and on
a state holding a stream. -/
theorem c8_close_behavior_witness :
    ((init ℕ).cur = none ∧ Close (init ℕ) false = (⟨none, 0, []⟩, false)) ∧
    ((⟨some [], 5, []⟩ : RState ℕ).cur = some [] ∧
     Close (⟨some [], 5, []⟩ : RState ℕ) false =
       (⟨some ([] ++ [StreamEvent.closeSend]), 0, []⟩, false)) :=
  ⟨⟨rfl, (c8_close_behavior (init ℕ) false).1 rfl⟩,
   ⟨rfl, (c8_close_behavior (⟨some [], 5, []⟩ : RState ℕ) false).2 [] rfl⟩⟩

/-- C9 (amended): whenever `server.Record` created an output file, the
deferred `out.Close()` runs when the receive loop ends; but its error is
DISCARDED — `Record`'s return value is independent of the close outcome
(nil on a normal end-of-stream), contrary to the claim that a close failure
is returned to the caller (`c9_counterexample`). -/
theorem c9_close_discarded {α : Type} (writeOk : ℕ → Bool) (closeErr : Bool)
    (ms : List (RecordRequest α)) :
    ((serverRecord writeOk closeErr ms).final.file.isSome →
      (serverRecord writeOk closeErr ms).closeCalled = true) ∧
    (serverRecord writeOk closeErr ms).outcome =
      (serverRecord writeOk false ms).outcome := by
  exact ⟨fun h => h, rfl⟩

/-- C9 counterexample: a session that created a file and whose close FAILS
still returns nil: the close error is not propagated. -/
theorem c9_counterexample :
    (serverRecord (fun _ => true) true
        ([⟨some ⟨1, mkRat 44100 1⟩, []⟩] : List (RecordRequest ℕ))).closeFailed =
      true ∧
    (serverRecord (fun _ => true) true
        ([⟨some ⟨1, mkRat 44100 1⟩, []⟩] : List (RecordRequest ℕ))).outcome =
      SrvOutcome.ok := by
  decide

/-- Witness for C9 (amended) at a session with one valid header message and
a failing close. -/
theorem c9_close_discarded_witness :
    (serverRecord (fun _ => true) true
        ([⟨some ⟨1, mkRat 44100 1⟩, []⟩] : List (RecordRequest ℕ))).final.file.isSome ∧
    (serverRecord (fun _ => true) true
        ([⟨some ⟨1, mkRat 44100 1⟩, []⟩] : List (RecordRequest ℕ))).closeCalled =
      true ∧
    (serverRecord (fun _ => true) true
        ([⟨some ⟨1, mkRat 44100 1⟩, []⟩] : List (RecordRequest ℕ))).outcome =
      (serverRecord (fun _ => true) false
        ([⟨some ⟨1, mkRat 44100 1⟩, []⟩] : List (RecordRequest ℕ))).outcome :=
  ⟨by decide,
   (c9_close_discarded (fun _ => true) true
     ([⟨some ⟨1, mkRat 44100 1⟩, []⟩] : List (RecordRequest ℕ))).1 (by decide),
   (c9_close_discarded (fun _ => true) true
     ([⟨some ⟨1, mkRat 44100 1⟩, []⟩] : List (RecordRequest ℕ))).2⟩

/-- C10: every `newRecording` call increments `numClients` by exactly one,
whether or not the open succeeds (last conjunct, whose right-hand side does
not depend on the open result); over any sequence of calls the sequence
numbers embedded in the generated names are `st, st+1, …` — strictly
increasing, hence pairwise distinct within the process lifetime — and the
final counter is the start plus the number of calls. -/
theorem c10_counter_monotone : ∀ (st : ℕ) (calls : List (ℤ × ℤ)),
    (runNewRecordings st calls).1 = List.range' st calls.length ∧
    (runNewRecordings st calls).2 = st + calls.length ∧
    List.Pairwise (· < ·) (runNewRecordings st calls).1 ∧
    ∀ c r : ℤ, (newRecording st c r).2.1 = st + 1 := by
  intro st calls
  induction calls generalizing st with
  | nil => simp [runNewRecordings, newRecording]
  | cons c cs ih =>
      have hfst : (runNewRecordings st (c :: cs)).1 =
          List.range' st (c :: cs).length := by
        simp [runNewRecordings, newRecording, (ih (st + 1)).1,
          List.range'_succ]
      refine ⟨hfst, ?_, ?_, fun c r => rfl⟩
      · simp only [runNewRecordings, newRecording, (ih (st + 1)).2.1,
          List.length_cons]
        omega
      · rw [hfst]
        exact List.pairwise_lt_range' st (c :: cs).length

end Audio
